import Mathlib

/-!
The stale-green-ci munger.

A shallow embedding of `mungegithub/mungers/stale-green-ci.go`: the munger
that re-triggers CI on an approved, mergeable, green pull request whose test
results are more than 96 hours old, and the predicate that recognises the
munger's own comments once CI has run again.

The collaborators of the file (`github.MungeObject`, `githubapi.IssueComment`,
the package constants declared in sibling files, the clock) are not part of
the file; they appear here as records of answers and as parameters.
-/

namespace Mungers

/-! ## Time -/

/-- An instant (Go `time.Time`), as a count of nanoseconds from a fixed epoch. -/
abbrev Time := Int

/-- A span of time (Go `time.Duration`): signed 64-bit nanoseconds. -/
abbrev Duration := Int

/-- Go `time.Minute`. -/
def Minute : Duration := 60 * 1000000000

/-- Go `time.Hour`. -/
def Hour : Duration := 60 * Minute

/-- The largest `time.Duration`, `1<<63 - 1`. -/
def maxDuration : Duration := 2 ^ 63 - 1

/-- The smallest `time.Duration`, `-1 << 63`. -/
def minDuration : Duration := -(2 ^ 63)

/-- Go `Time.Sub`: the difference `t - u`, pinned to the largest or smallest
`Duration` when it does not fit in 64 bits. -/
def Time.Sub (t u : Time) : Duration :=
  if t - u > maxDuration then maxDuration
  else if t - u < minDuration then minDuration
  else t - u

/-- Go `Time.Add`. -/
def Time.Add (t : Time) (d : Duration) : Time := t + d

/-- Go `Time.After`, as a boolean. -/
def Time.After (t u : Time) : Bool := decide (t > u)

/-- The clock: the reading returned by the n-th call of `time.Now` during one
run. -/
abbrev Clock := Nat → Time

/-- A clock that stands still at one evaluation instant. -/
def instant (now : Time) : Clock := fun _ => now

/-- Go `time.Since(t)`, which is `time.Now().Sub(t)`, at the clock reading `now`. -/
def Since (now t : Time) : Duration := Time.Sub now t

/-! ## Collaborators -/

/-- A Go `error` value, by its message. -/
abbrev Error := String

/-- The part of `githubapi.User` that identifies the author. -/
structure User where
  Login : Option String
deriving DecidableEq, Repr

/-- The type `githubapi.IssueComment`: every field is a pointer and may be nil. -/
structure IssueComment where
  Body : Option String
  User : Option User
  CreatedAt : Option Time
deriving DecidableEq, Repr

/-- The type `*github.MungeObject`, as the answers its methods give during one
run. `Number` is `obj.Issue.Number`, a pointer. `IsMergeable` gives the pair
`(mergeable, err)`; `WriteComment` and `WaitForPending` give their `error`
result (`none` for nil). -/
structure MungeObject where
  Number : Option Int
  IsPR : Bool
  HasLabel : String → Bool
  IsMergeable : Bool × Option Error
  IsStatusSuccess : List String → Bool
  GetStatusTime : String → Option Time
  WriteComment : String → Option Error
  WaitForPending : List String → Option Error

/-- The declarations of package `mungers` that the file uses and that live in
sibling files: the constants `jenkinsBotName`, `jenkinsUnitContext`,
`jenkinsE2EContext`, `lgtmLabel`, and the function `mergeBotComment`. -/
structure Package where
  jenkinsBotName : String
  jenkinsUnitContext : String
  jenkinsE2EContext : String
  lgtmLabel : String
  mergeBotComment : IssueComment → Bool

/-! ## Runs -/

/-- A call of a method of the munge object that acts on GitHub. -/
inductive Call where
  | WriteComment (body : String)
  | WaitForPending (contexts : List String)
deriving DecidableEq, Repr

/-- A line written through `glog`. -/
inductive Diag where
  /-- The line `"%d: unable to determine time %q context was set"`. -/
  | unableToDetermineTime (number : Int) (context : String)
  /-- The line `"Failed waiting for PR to start testing: %v"`. -/
  | failedWaiting (err : Error)
  /-- The line `"Found stale StaleGreenCI comment"`, at verbosity 6. -/
  | foundStale
deriving DecidableEq, Repr

/-- A run-time panic of the Go program. -/
inductive Panic where
  | nilDereference
deriving DecidableEq, Repr

/-- What one run of a function did: the calls it made on the munge object, in
order, the lines it logged, in order, and how it ended: with a value, or with
a panic. -/
structure Run (α : Type) where
  calls : List Call
  logs : List Diag
  result : Except Panic α

/-! ## The source file -/

/-- The constant `staleGreenCIHours`. -/
def staleGreenCIHours : Int := 96

/-- The constant `greenMsgFormat`. -/
def greenMsgFormat (k : Package) : String :=
  "@" ++ k.jenkinsBotName ++ " test this\n\nTests are more than %d hours old. Re-running tests."

/-- Go `fmt.Sprintf` on the verbs that `greenMsgFormat` itself contains: `%d`
prints the next argument in decimal (`%!d(MISSING)` when none is left), `%%`
prints a percent sign, and every other character is copied. -/
def Sprintf : List Char → List Int → List Char
  | [], _ => []
  | [c], _ => [c]
  | c :: d :: rest, args =>
    if c = '%' ∧ d = 'd' then
      match args with
      | a :: args2 => (toString a).toList ++ Sprintf rest args2
      | [] => "%!d(MISSING)".toList ++ Sprintf rest []
    else if c = '%' ∧ d = '%' then '%' :: Sprintf rest args
    else c :: Sprintf (d :: rest) args
termination_by fmt _ => fmt.length

/-- The variable `greenMsgBody`. -/
def greenMsgBody (k : Package) : String :=
  String.mk (Sprintf (greenMsgFormat k).toList [staleGreenCIHours])

/-- The variable `requiredContexts`. -/
def requiredContexts (k : Package) : List String :=
  [k.jenkinsUnitContext, k.jenkinsE2EContext]

/-- The loop `for _, context := range requiredContexts` of `Munge`, on the
contexts still to visit; `n` counts the clock readings taken so far. -/
def StaleGreenCI.mungeLoop (k : Package) (obj : MungeObject) (clock : Clock) :
    Nat → List String → Run Unit
  | _, [] => ⟨[], [], .ok ()⟩
  | n, context :: rest =>
    match obj.GetStatusTime context with
    | none =>
      match obj.Number with
      | none => ⟨[], [], .error .nilDereference⟩
      | some number => ⟨[], [.unableToDetermineTime number context], .ok ()⟩
    | some statusTime =>
      if Since (clock n) statusTime > staleGreenCIHours * Hour then
        -- the result of WriteComment is dropped
        let _ := obj.WriteComment (greenMsgBody k)
        match obj.WaitForPending (requiredContexts k) with
        | some err =>
          ⟨[.WriteComment (greenMsgBody k), .WaitForPending (requiredContexts k)],
            [.failedWaiting err], .ok ()⟩
        | none =>
          ⟨[.WriteComment (greenMsgBody k), .WaitForPending (requiredContexts k)],
            [], .ok ()⟩
      else StaleGreenCI.mungeLoop k obj clock (n + 1) rest

/-- The method `StaleGreenCI.Munge`. -/
def StaleGreenCI.Munge (k : Package) (obj : MungeObject) (clock : Clock) : Run Unit :=
  if !obj.IsPR then ⟨[], [], .ok ()⟩
  else if !obj.HasLabel k.lgtmLabel then ⟨[], [], .ok ()⟩
  else if !obj.IsMergeable.1 || obj.IsMergeable.2 != none then ⟨[], [], .ok ()⟩
  else if !obj.IsStatusSuccess (requiredContexts k) then ⟨[], [], .ok ()⟩
  else StaleGreenCI.mungeLoop k obj clock 0 (requiredContexts k)

/-- The loop `for _, context := range requiredContexts` of
`commentBeforeLastCI`, on the contexts still to visit. -/
def commentBeforeLastCILoop (obj : MungeObject) (commentTime : Time) : List String → Bool
  | [] => true
  | context :: rest =>
    match obj.GetStatusTime context with
    | none => false
    | some statusTimeP =>
      let statusTime := Time.Add statusTimeP (30 * Minute)
      if Time.After commentTime statusTime then false
      else commentBeforeLastCILoop obj commentTime rest

/-- The function `commentBeforeLastCI`. -/
def commentBeforeLastCI (k : Package) (obj : MungeObject) (comment : IssueComment) : Bool :=
  if !obj.IsStatusSuccess (requiredContexts k) then false
  else
    match comment.CreatedAt with
    | none => false
    | some commentTime => commentBeforeLastCILoop obj commentTime (requiredContexts k)

/-- The method `StaleGreenCI.isStaleComment`. Reading `*comment.Body` panics
when the pointer is nil. -/
def StaleGreenCI.isStaleComment (k : Package) (obj : MungeObject) (comment : IssueComment) :
    Run Bool :=
  if !k.mergeBotComment comment then ⟨[], [], .ok false⟩
  else
    match comment.Body with
    | none => ⟨[], [], .error .nilDereference⟩
    | some body =>
      if body != greenMsgBody k then ⟨[], [], .ok false⟩
      else
        let stale := commentBeforeLastCI k obj comment
        if stale then ⟨[], [.foundStale], .ok stale⟩
        else ⟨[], [], .ok stale⟩

/-! ## Reading a run -/

/-- The two things the munger can be seen to do. -/
inductive Action where
  | NoOp
  | TriggerRetest
deriving DecidableEq, Repr

/-- The action a run of `Munge` took: `TriggerRetest` when it called
`WriteComment` or `WaitForPending`, `NoOp` when it called neither. -/
def action (r : Run Unit) : Action :=
  if r.calls = [] then .NoOp else .TriggerRetest

/-- The bodies passed to `WriteComment` during a run, in order. -/
def writtenComments : List Call → List String
  | [] => []
  | .WriteComment body :: rest => body :: writtenComments rest
  | .WaitForPending _ :: rest => writtenComments rest

/-! ## Sample data -/

/-- A package with the names the munger was deployed with. -/
def samplePackage : Package where
  jenkinsBotName := "k8s-bot"
  jenkinsUnitContext := "Jenkins unit/integration"
  jenkinsE2EContext := "Jenkins GCE e2e"
  lgtmLabel := "lgtm"
  mergeBotComment := fun c =>
    match c.User with
    | some u => u.Login == some "k8s-merge-robot"
    | none => false

/-- A pull request with the label, mergeable and green, whose unit run is 100
hours old and whose e2e run is 10 hours old at the instant `100 * Hour`. -/
def staleUnitPR : MungeObject where
  Number := some 12345
  IsPR := true
  HasLabel := fun l => l == "lgtm"
  IsMergeable := (true, none)
  IsStatusSuccess := fun _ => true
  GetStatusTime := fun c =>
    if c == "Jenkins unit/integration" then some 0
    else if c == "Jenkins GCE e2e" then some (90 * Hour)
    else none
  WriteComment := fun _ => none
  WaitForPending := fun _ => none

/-- The pull request `staleUnitPR` with no status time for the e2e context. -/
def staleUnitNoE2EPR : MungeObject :=
  { staleUnitPR with
    GetStatusTime := fun c => if c == "Jenkins unit/integration" then some 0 else none }

/-- The pull request `staleUnitPR` without the LGTM label. -/
def unlabelledPR : MungeObject :=
  { staleUnitPR with HasLabel := fun _ => false }

/-- The pull request `staleUnitPR` with no status time for the unit context. -/
def noUnitTimePR : MungeObject :=
  { staleUnitPR with
    GetStatusTime := fun c => if c == "Jenkins GCE e2e" then some 0 else none }

/-- The pull request `staleUnitPR` on which posting the comment fails. -/
def commentFailsPR : MungeObject :=
  { staleUnitPR with WriteComment := fun _ => some "422 Unprocessable Entity" }

/-- The pull request `staleUnitPR` on which no test run is seen to start. -/
def waitFailsPR : MungeObject :=
  { staleUnitPR with WaitForPending := fun _ => some "timed out waiting for PR to start testing" }

/-- The pull request `staleUnitPR` whose mergeability is unknown. -/
def unknownMergeablePR : MungeObject :=
  { staleUnitPR with IsMergeable := (true, some "mergeable is nil") }

/-- The merge bot of `samplePackage`. -/
def mergeBot : User := ⟨some "k8s-merge-robot"⟩

/-- The comment of the munger, posted by the merge bot 20 minutes after the
unit context of `staleUnitPR` was set. -/
def earlyBotComment : IssueComment where
  Body := some (greenMsgBody samplePackage)
  User := some mergeBot
  CreatedAt := some (20 * Minute)

/-- A comment of the merge bot without a body, created 20 minutes after the
unit context of `staleUnitPR` was set. -/
def nilBodyComment : IssueComment where
  Body := none
  User := some mergeBot
  CreatedAt := some (20 * Minute)

/-- The text of the munger's comment, posted by somebody else. -/
def humanComment : IssueComment where
  Body := some (greenMsgBody samplePackage)
  User := some ⟨some "alice"⟩
  CreatedAt := some (20 * Minute)

/-- A comment of the merge bot whose body is the munger's text followed by a
blank. -/
def trailingBlankComment : IssueComment where
  Body := some (greenMsgBody samplePackage ++ " ")
  User := some mergeBot
  CreatedAt := some (20 * Minute)

/-- The comment of the munger, posted by the merge bot at the instant
`100 * Hour`, when `staleUnitPR` is re-triggered. -/
def freshBotComment : IssueComment where
  Body := some (greenMsgBody samplePackage)
  User := some mergeBot
  CreatedAt := some (100 * Hour)

/-- The package in which the two context names have changed places, so that
`requiredContexts` lists the e2e context first. -/
def swapContexts (k : Package) : Package :=
  { k with
    jenkinsUnitContext := k.jenkinsE2EContext
    jenkinsE2EContext := k.jenkinsUnitContext }

/-- The package `samplePackage` with a `mergeBotComment` that first rejects a
comment whose user, login, body or creation time is nil. -/
def checkedPackage : Package :=
  { samplePackage with
    mergeBotComment := fun c =>
      match c.User, c.Body, c.CreatedAt with
      | some u, some _, some _ => u.Login == some "k8s-merge-robot"
      | _, _, _ => false }

/-- The comment of the munger, posted by the merge bot one second after the
grace window of the unit context of `staleUnitPR`. -/
def lateBotComment : IssueComment where
  Body := some (greenMsgBody checkedPackage)
  User := some mergeBot
  CreatedAt := some (30 * Minute + 1000000000)

/-! ## Lemmas on time -/

theorem pinned_gt_iff (d : Int) :
    (if d > 2 ^ 63 - 1 then (2 ^ 63 - 1 : Int) else if d < -(2 ^ 63) then -(2 ^ 63) else d)
        > 96 * (60 * (60 * 1000000000)) ↔
      d > 96 * (60 * (60 * 1000000000)) := by
  norm_num
  split_ifs <;> constructor <;> intro _ <;> omega

theorem since_stale_iff (now t : Time) :
    Since now t > staleGreenCIHours * Hour ↔ now - t > 96 * Hour :=
  pinned_gt_iff (now - t)

theorem after_grace_iff (commentTime t : Time) :
    Time.After commentTime (Time.Add t (30 * Minute)) = true ↔ commentTime > t + 30 * Minute := by
  simp [Time.After, Time.Add]

/-! ## Lemmas on runs -/

theorem action_noop_iff (r : Run Unit) : action r = .NoOp ↔ r.calls = [] := by
  unfold action
  split_ifs with h <;> simp [h]

theorem action_trigger_iff (r : Run Unit) : action r = .TriggerRetest ↔ r.calls ≠ [] := by
  unfold action
  split_ifs with h <;> simp [h]

/-- A run of the loop of `Munge` makes no call, or makes exactly the two calls
of the re-trigger, the comment first. -/
theorem mungeLoop_calls (k : Package) (obj : MungeObject) (clock : Clock) (n : Nat)
    (ctxs : List String) :
    (StaleGreenCI.mungeLoop k obj clock n ctxs).calls = [] ∨
    (StaleGreenCI.mungeLoop k obj clock n ctxs).calls =
      [.WriteComment (greenMsgBody k), .WaitForPending (requiredContexts k)] := by
  induction ctxs generalizing n with
  | nil => simp [StaleGreenCI.mungeLoop]
  | cons c rest ih =>
    unfold StaleGreenCI.mungeLoop
    cases hg : obj.GetStatusTime c with
    | none => cases hn : obj.Number <;> simp
    | some t =>
      by_cases hs : Since (clock n) t > staleGreenCIHours * Hour
      · cases hw : obj.WaitForPending (requiredContexts k) <;> simp [hs]
      · simpa [hs] using ih (n + 1)

/-- When one of the four preconditions fails, `Munge` returns at once. -/
theorem Munge_of_precondition_fails (k : Package) (obj : MungeObject) (clock : Clock)
    (h : obj.IsPR = false ∨ obj.HasLabel k.lgtmLabel = false ∨ obj.IsMergeable.1 = false ∨
      obj.IsMergeable.2 ≠ none ∨ obj.IsStatusSuccess (requiredContexts k) = false) :
    StaleGreenCI.Munge k obj clock = ⟨[], [], .ok ()⟩ := by
  unfold StaleGreenCI.Munge
  rcases h with h | h | h | h | h
  · simp [h]
  · by_cases h1 : obj.IsPR <;> simp [h, h1]
  · by_cases h1 : obj.IsPR <;> by_cases h2 : obj.HasLabel k.lgtmLabel <;> simp [h, h1, h2]
  · by_cases h1 : obj.IsPR <;> by_cases h2 : obj.HasLabel k.lgtmLabel <;> simp [h, h1, h2]
  · by_cases h1 : obj.IsPR <;> by_cases h2 : obj.HasLabel k.lgtmLabel <;>
      by_cases h3 : (!obj.IsMergeable.1 || obj.IsMergeable.2 != none) <;> simp [h, h1, h2, h3]

/-- When the four preconditions hold, `Munge` runs its loop. -/
theorem Munge_of_preconditions (k : Package) (obj : MungeObject) (clock : Clock)
    (hpr : obj.IsPR = true) (hl : obj.HasLabel k.lgtmLabel = true)
    (hm : obj.IsMergeable.1 = true) (herr : obj.IsMergeable.2 = none)
    (hs : obj.IsStatusSuccess (requiredContexts k) = true) :
    StaleGreenCI.Munge k obj clock =
      StaleGreenCI.mungeLoop k obj clock 0 (requiredContexts k) := by
  simp [StaleGreenCI.Munge, hpr, hl, hm, herr, hs]

/-- The loop of `Munge` over the two required contexts when both status times
are present, at one evaluation instant. -/
theorem mungeLoop_both_present (k : Package) (obj : MungeObject) (now tu te : Time)
    (hu : obj.GetStatusTime k.jenkinsUnitContext = some tu)
    (he : obj.GetStatusTime k.jenkinsE2EContext = some te) :
    (StaleGreenCI.mungeLoop k obj (instant now) 0 (requiredContexts k)).calls =
      if now - tu > 96 * Hour ∨ now - te > 96 * Hour then
        [.WriteComment (greenMsgBody k), .WaitForPending (requiredContexts k)]
      else [] := by
  have h1 := since_stale_iff now tu
  have h2 := since_stale_iff now te
  by_cases c1 : now - tu > 96 * Hour <;> by_cases c2 : now - te > 96 * Hour <;>
    cases hw : obj.WaitForPending [k.jenkinsUnitContext, k.jenkinsE2EContext] <;>
    simp [StaleGreenCI.mungeLoop, requiredContexts, instant, hu, he, h1, h2, c1, c2, hw]

/-- A context without a status time ends the loop of `Munge` with no call. -/
theorem mungeLoop_cons_none (k : Package) (obj : MungeObject) (clock : Clock) (n : Nat)
    (c : String) (rest : List String) (hc : obj.GetStatusTime c = none) :
    (StaleGreenCI.mungeLoop k obj clock n (c :: rest)).calls = [] := by
  cases hn : obj.Number <;> simp [StaleGreenCI.mungeLoop, hc, hn]

/-- A context whose status time is more than 96 hours old ends the loop of
`Munge` with the two calls of the re-trigger. -/
theorem mungeLoop_cons_stale (k : Package) (obj : MungeObject) (clock : Clock) (n : Nat)
    (c : String) (rest : List String) (t : Time) (hc : obj.GetStatusTime c = some t)
    (ht : clock n - t > 96 * Hour) :
    (StaleGreenCI.mungeLoop k obj clock n (c :: rest)).calls =
      [.WriteComment (greenMsgBody k), .WaitForPending (requiredContexts k)] := by
  have h1 := (since_stale_iff (clock n) t).2 ht
  cases hw : obj.WaitForPending (requiredContexts k) <;>
    simp [StaleGreenCI.mungeLoop, hc, h1, hw]

/-- A context whose status time is at most 96 hours old lets the loop of
`Munge` go on to the next context. -/
theorem mungeLoop_cons_fresh (k : Package) (obj : MungeObject) (clock : Clock) (n : Nat)
    (c : String) (rest : List String) (t : Time) (hc : obj.GetStatusTime c = some t)
    (ht : ¬ clock n - t > 96 * Hour) :
    StaleGreenCI.mungeLoop k obj clock n (c :: rest) =
      StaleGreenCI.mungeLoop k obj clock (n + 1) rest := by
  have h1 : ¬ Since (clock n) t > staleGreenCIHours * Hour :=
    fun h => ht ((since_stale_iff (clock n) t).1 h)
  rw [StaleGreenCI.mungeLoop]
  simp [hc, h1]

/-- Whatever the preconditions say, `Munge` makes the calls of its loop or none. -/
theorem Munge_calls_subsingleton (k : Package) (obj : MungeObject) (clock : Clock) :
    (StaleGreenCI.Munge k obj clock).calls = [] ∨
    (StaleGreenCI.Munge k obj clock).calls =
      (StaleGreenCI.mungeLoop k obj clock 0 (requiredContexts k)).calls := by
  unfold StaleGreenCI.Munge
  split_ifs <;> simp

/-- When the four preconditions hold and the first required context is more
than 96 hours old at the first clock reading, `Munge` makes the two calls of
the re-trigger. -/
theorem Munge_first_stale (k : Package) (obj : MungeObject) (clock : Clock) (t : Time)
    (hpr : obj.IsPR = true) (hl : obj.HasLabel k.lgtmLabel = true)
    (hm : obj.IsMergeable.1 = true) (herr : obj.IsMergeable.2 = none)
    (hs : obj.IsStatusSuccess (requiredContexts k) = true)
    (hu : obj.GetStatusTime k.jenkinsUnitContext = some t) (ht : clock 0 - t > 96 * Hour) :
    (StaleGreenCI.Munge k obj clock).calls =
      [.WriteComment (greenMsgBody k), .WaitForPending (requiredContexts k)] := by
  rw [Munge_of_preconditions k obj clock hpr hl hm herr hs]
  exact mungeLoop_cons_stale k obj clock 0 _ _ t hu ht

/-- The loop of `Munge` does not look at the answer of `WriteComment`. -/
theorem mungeLoop_WriteComment_irrelevant (k : Package) (obj : MungeObject) (clock : Clock)
    (w : String → Option Error) (n : Nat) (ctxs : List String) :
    StaleGreenCI.mungeLoop k { obj with WriteComment := w } clock n ctxs =
      StaleGreenCI.mungeLoop k obj clock n ctxs := by
  induction ctxs generalizing n with
  | nil => simp [StaleGreenCI.mungeLoop]
  | cons c rest ih =>
    rw [StaleGreenCI.mungeLoop, StaleGreenCI.mungeLoop, ih (n + 1)]

/-- The calls of the loop of `Munge` do not depend on the answer of
`WaitForPending`. -/
theorem mungeLoop_WaitForPending_calls (k : Package) (obj : MungeObject) (clock : Clock)
    (w : List String → Option Error) (n : Nat) (ctxs : List String) :
    (StaleGreenCI.mungeLoop k { obj with WaitForPending := w } clock n ctxs).calls =
      (StaleGreenCI.mungeLoop k obj clock n ctxs).calls := by
  induction ctxs generalizing n with
  | nil => simp [StaleGreenCI.mungeLoop]
  | cons c rest ih =>
    rw [StaleGreenCI.mungeLoop, StaleGreenCI.mungeLoop]
    cases hg : obj.GetStatusTime c with
    | none => cases hn : obj.Number <;> simp
    | some t =>
      by_cases hs : Since (clock n) t > staleGreenCIHours * Hour
      · cases hw : obj.WaitForPending (requiredContexts k) <;>
          cases hw2 : w (requiredContexts k) <;> simp [hs, hw2]
      · simpa [hs] using ih (n + 1)

/-- The calls of `Munge` are none or the two calls of the re-trigger. -/
theorem Munge_calls (k : Package) (obj : MungeObject) (clock : Clock) :
    (StaleGreenCI.Munge k obj clock).calls = [] ∨
    (StaleGreenCI.Munge k obj clock).calls =
      [.WriteComment (greenMsgBody k), .WaitForPending (requiredContexts k)] := by
  rcases Munge_calls_subsingleton k obj clock with h | h
  · exact Or.inl h
  · rw [h]
    exact mungeLoop_calls k obj clock 0 _

/-- The loop of `commentBeforeLastCI` answers true exactly when every context
it visits has a status time and the comment is no later than that time plus
30 minutes. -/
theorem commentBeforeLastCILoop_iff (obj : MungeObject) (commentTime : Time)
    (ctxs : List String) :
    commentBeforeLastCILoop obj commentTime ctxs = true ↔
      ∀ c ∈ ctxs, ∃ t, obj.GetStatusTime c = some t ∧ commentTime ≤ t + 30 * Minute := by
  induction ctxs with
  | nil => simp [commentBeforeLastCILoop]
  | cons c rest ih =>
    rw [commentBeforeLastCILoop]
    cases hg : obj.GetStatusTime c with
    | none => simp [hg]
    | some t =>
      by_cases ha : commentTime > t + 30 * Minute
      · have h1 := (after_grace_iff commentTime t).2 ha
        simp only [h1, if_true, List.mem_cons, forall_eq_or_imp, hg, Option.some.injEq,
          exists_eq_left', Bool.false_eq_true, false_iff, not_and]
        intro hle
        exact absurd hle (not_le.2 ha)
      · have h1 : Time.After commentTime (Time.Add t (30 * Minute)) = false := by
          rw [← Bool.not_eq_true, after_grace_iff]
          exact ha
        simp only [h1, Bool.false_eq_true, if_false, ih, List.mem_cons, forall_eq_or_imp, hg,
          Option.some.injEq, exists_eq_left', not_lt.1 ha, true_and]

/-- The function `commentBeforeLastCI` answers true exactly when the required
contexts are green, the comment has a creation time, and every required
context has a status time no earlier than 30 minutes before it. -/
theorem commentBeforeLastCI_iff (k : Package) (obj : MungeObject) (comment : IssueComment) :
    commentBeforeLastCI k obj comment = true ↔
      obj.IsStatusSuccess (requiredContexts k) = true ∧
      ∃ commentTime, comment.CreatedAt = some commentTime ∧
        ∀ c ∈ requiredContexts k,
          ∃ t, obj.GetStatusTime c = some t ∧ commentTime ≤ t + 30 * Minute := by
  unfold commentBeforeLastCI
  cases hs : obj.IsStatusSuccess (requiredContexts k) with
  | false => simp
  | true =>
    cases hc : comment.CreatedAt with
    | none => simp
    | some ct => simp [commentBeforeLastCILoop_iff]

/-- A run of the loop of `Munge` that makes a call has met a context whose
status time is more than 96 hours before the evaluation instant. -/
theorem mungeLoop_trigger_exists (k : Package) (obj : MungeObject) (now : Time) (n : Nat)
    (ctxs : List String)
    (h : (StaleGreenCI.mungeLoop k obj (instant now) n ctxs).calls ≠ []) :
    ∃ c ∈ ctxs, ∃ t, obj.GetStatusTime c = some t ∧ now - t > 96 * Hour := by
  induction ctxs generalizing n with
  | nil => simp [StaleGreenCI.mungeLoop] at h
  | cons c rest ih =>
    cases hg : obj.GetStatusTime c with
    | none => exact absurd (mungeLoop_cons_none k obj _ n c rest hg) h
    | some t =>
      by_cases hs : now - t > 96 * Hour
      · exact ⟨c, by simp, t, hg, hs⟩
      · rw [mungeLoop_cons_fresh k obj _ n c rest t hg hs] at h
        obtain ⟨c2, hc2, t2, ht2, hs2⟩ := ih (n + 1) h
        exact ⟨c2, List.mem_cons_of_mem _ hc2, t2, ht2, hs2⟩

/-- A run of the loop of `Munge` that makes a call at one instant makes one at
every later instant. -/
theorem mungeLoop_trigger_mono (k : Package) (obj : MungeObject) (now later : Time)
    (hle : now ≤ later) (n m : Nat) (ctxs : List String)
    (h : (StaleGreenCI.mungeLoop k obj (instant now) n ctxs).calls ≠ []) :
    (StaleGreenCI.mungeLoop k obj (instant later) m ctxs).calls ≠ [] := by
  induction ctxs generalizing n m with
  | nil => simp [StaleGreenCI.mungeLoop] at h
  | cons c rest ih =>
    cases hg : obj.GetStatusTime c with
    | none => exact absurd (mungeLoop_cons_none k obj _ n c rest hg) h
    | some t =>
      by_cases hs : later - t > 96 * Hour
      · rw [mungeLoop_cons_stale k obj (instant later) m c rest t hg hs]
        simp
      · have hs0 : ¬ now - t > 96 * Hour := fun h0 =>
          hs (lt_of_lt_of_le h0 (sub_le_sub_right hle t))
        rw [mungeLoop_cons_fresh k obj _ n c rest t hg hs0] at h
        rw [mungeLoop_cons_fresh k obj (instant later) m c rest t hg hs]
        exact ih (n + 1) (m + 1) h

/-- Two instants at which every context of the list is on the same side of
the 96 hours give the same run of the loop of `Munge`. -/
theorem mungeLoop_same_side (k : Package) (obj : MungeObject) (now other : Time) (n m : Nat)
    (ctxs : List String)
    (h : ∀ c ∈ ctxs, ∀ t, obj.GetStatusTime c = some t →
      (now - t > 96 * Hour ↔ other - t > 96 * Hour)) :
    StaleGreenCI.mungeLoop k obj (instant now) n ctxs =
      StaleGreenCI.mungeLoop k obj (instant other) m ctxs := by
  induction ctxs generalizing n m with
  | nil => simp [StaleGreenCI.mungeLoop]
  | cons c rest ih =>
    cases hg : obj.GetStatusTime c with
    | none => simp [StaleGreenCI.mungeLoop, hg]
    | some t =>
      have hside := h c (by simp) t hg
      by_cases hs : now - t > 96 * Hour
      · have h1 := (since_stale_iff now t).2 hs
        have h2 := (since_stale_iff other t).2 (hside.1 hs)
        simp [StaleGreenCI.mungeLoop, hg, instant, h1, h2]
      · rw [mungeLoop_cons_fresh k obj _ n c rest t hg hs,
          mungeLoop_cons_fresh k obj (instant other) m c rest t hg (fun h0 => hs (hside.2 h0))]
        exact ih (n + 1) (m + 1) (fun c2 hc2 => h c2 (List.mem_cons_of_mem _ hc2))

/-- A run of `Munge` that makes a call has passed the four preconditions and
made the calls of its loop. -/
theorem Munge_trigger_loop (k : Package) (obj : MungeObject) (clock : Clock)
    (h : (StaleGreenCI.Munge k obj clock).calls ≠ []) :
    (StaleGreenCI.mungeLoop k obj clock 0 (requiredContexts k)).calls ≠ [] ∧
      obj.IsPR = true ∧ obj.HasLabel k.lgtmLabel = true ∧ obj.IsMergeable.1 = true ∧
      obj.IsMergeable.2 = none ∧ obj.IsStatusSuccess (requiredContexts k) = true := by
  have hpre : obj.IsPR = true ∧ obj.HasLabel k.lgtmLabel = true ∧ obj.IsMergeable.1 = true ∧
      obj.IsMergeable.2 = none ∧ obj.IsStatusSuccess (requiredContexts k) = true := by
    by_contra hn
    apply h
    rw [Munge_of_precondition_fails k obj clock]
    cases h1 : obj.IsPR <;> cases h2 : obj.HasLabel k.lgtmLabel <;>
      cases h3 : obj.IsMergeable.1 <;> cases h4 : obj.IsStatusSuccess (requiredContexts k) <;>
      cases h5 : obj.IsMergeable.2 <;> simp_all
  refine ⟨?_, hpre⟩
  rw [← Munge_of_preconditions k obj clock hpre.1 hpre.2.1 hpre.2.2.1 hpre.2.2.2.1
    hpre.2.2.2.2]
  exact h

/-- The method `isStaleComment` calls neither `WriteComment` nor
`WaitForPending`. -/
theorem isStaleComment_calls (k : Package) (obj : MungeObject) (comment : IssueComment) :
    (StaleGreenCI.isStaleComment k obj comment).calls = [] := by
  unfold StaleGreenCI.isStaleComment
  cases hm : k.mergeBotComment comment <;> cases hb : comment.Body <;> simp
  split_ifs <;> rfl

/-- The method `isStaleComment` returns a boolean on every comment that has a
body or is not the merge bot's. -/
theorem isStaleComment_returns (k : Package) (obj : MungeObject) (comment : IssueComment)
    (h : comment.Body ≠ none ∨ k.mergeBotComment comment = false) :
    ∃ b, (StaleGreenCI.isStaleComment k obj comment).result = .ok b := by
  unfold StaleGreenCI.isStaleComment
  cases hm : k.mergeBotComment comment <;> cases hb : comment.Body <;> simp_all
  split_ifs <;> simp

/-- Two runs that agree on whether a call was made took the same action. -/
theorem action_eq_of_calls (r r2 : Run Unit) (h : r.calls = [] ↔ r2.calls = []) :
    action r = action r2 := by
  unfold action
  by_cases h1 : r.calls = []
  · rw [if_pos h1, if_pos (h.1 h1)]
  · rw [if_neg h1, if_neg (fun h2 => h1 (h.2 h2))]

/-- The grace window of the reconciler is shorter than the 96 hours of the
evaluator. -/
theorem grace_lt_stale : (30 * Minute : Int) < 96 * Hour := by
  decide

/-! ## Lemmas on the comment body -/

/-- Characters of the format before the first percent sign are copied. -/
theorem Sprintf_plain (l rest : List Char) (args : List Int) (h : '%' ∉ l) :
    Sprintf (l ++ rest) args = l ++ Sprintf rest args := by
  induction l with
  | nil => rfl
  | cons c l ih =>
    have hc : c ≠ '%' := fun e => h (by simp [e])
    have hl : '%' ∉ l := fun e => h (by simp [e])
    cases hlr : l ++ rest with
    | nil =>
      have h1 : l = [] := (List.append_eq_nil.1 hlr).1
      have h2 : rest = [] := (List.append_eq_nil.1 hlr).2
      subst h1; subst h2
      simp [Sprintf]
    | cons d tl =>
      rw [List.cons_append, hlr]
      conv_lhs => unfold Sprintf
      simp only [hc, false_and, if_false]
      rw [← hlr, ih hl]
      rfl

/-- The part of `greenMsgFormat` after the bot name, formatted with 96. -/
theorem Sprintf_tail :
    Sprintf " test this\n\nTests are more than %d hours old. Re-running tests.".toList
        [staleGreenCIHours] =
      " test this\n\nTests are more than 96 hours old. Re-running tests.".toList := by
  simp [Sprintf, staleGreenCIHours]
  decide

/-- The text of `greenMsgBody` when the bot name has no percent sign. -/
theorem greenMsgBody_eq (k : Package) (h : '%' ∉ k.jenkinsBotName.toList) :
    greenMsgBody k =
      "@" ++ k.jenkinsBotName ++
        " test this\n\nTests are more than 96 hours old. Re-running tests." := by
  apply String.ext
  have h2 : '%' ∉ "@".toList ++ k.jenkinsBotName.toList := by
    simp only [List.mem_append, not_or]
    exact ⟨by decide, h⟩
  have h3 := Sprintf_plain ("@".toList ++ k.jenkinsBotName.toList)
    " test this\n\nTests are more than %d hours old. Re-running tests.".toList
    [staleGreenCIHours] h2
  rw [Sprintf_tail] at h3
  simpa [greenMsgBody, greenMsgFormat, String.toList] using h3

/-! ## The staleness evaluator -/

/-- C1. On a pull request with the LGTM label that is mergeable without error
and green on the required contexts, with both status times present and at
least one of them more than 96 hours before `now`, `Munge` re-triggers, and
`WriteComment` is called exactly once, with `greenMsgBody`. -/
theorem Munge_stale_triggers (k : Package) (obj : MungeObject) (now tu te : Time)
    (hpr : obj.IsPR = true) (hl : obj.HasLabel k.lgtmLabel = true)
    (hm : obj.IsMergeable = (true, none))
    (hs : obj.IsStatusSuccess (requiredContexts k) = true)
    (hu : obj.GetStatusTime k.jenkinsUnitContext = some tu)
    (he : obj.GetStatusTime k.jenkinsE2EContext = some te)
    (hstale : now - tu > 96 * Hour ∨ now - te > 96 * Hour) :
    action (StaleGreenCI.Munge k obj (instant now)) = .TriggerRetest ∧
      writtenComments (StaleGreenCI.Munge k obj (instant now)).calls = [greenMsgBody k] := by
  rw [action_trigger_iff,
    Munge_of_preconditions k obj _ hpr hl (by rw [hm]) (by rw [hm]) hs,
    mungeLoop_both_present k obj now tu te hu he, if_pos hstale]
  simp [writtenComments]

/-- The example of C1: status times `now - 100h` and `now - 10h`. -/
theorem Munge_stale_triggers_witness :
    action (StaleGreenCI.Munge samplePackage staleUnitPR (instant (100 * Hour))) = .TriggerRetest ∧
      writtenComments (StaleGreenCI.Munge samplePackage staleUnitPR (instant (100 * Hour))).calls
        = [greenMsgBody samplePackage] :=
  Munge_stale_triggers samplePackage staleUnitPR (100 * Hour) (100 * Hour - 100 * Hour)
    (100 * Hour - 10 * Hour) rfl rfl rfl rfl (by decide) (by decide) (by decide)

/-- C2, against the claim as stated. The pull request `staleUnitNoE2EPR` is
green, has no status time for the e2e context, and `Munge` re-triggers on it:
the unit context, visited first, is 100 hours old. -/
theorem Munge_missing_time_counterexample :
    staleUnitNoE2EPR.IsStatusSuccess (requiredContexts samplePackage) = true ∧
    staleUnitNoE2EPR.GetStatusTime samplePackage.jenkinsE2EContext = none ∧
    action (StaleGreenCI.Munge samplePackage staleUnitNoE2EPR (instant (100 * Hour)))
      = .TriggerRetest ∧
    (StaleGreenCI.Munge samplePackage staleUnitNoE2EPR (instant (100 * Hour))).calls =
      [.WriteComment (greenMsgBody samplePackage),
       .WaitForPending (requiredContexts samplePackage)] := by
  have hc : (StaleGreenCI.Munge samplePackage staleUnitNoE2EPR (instant (100 * Hour))).calls =
      [.WriteComment (greenMsgBody samplePackage),
       .WaitForPending (requiredContexts samplePackage)] := by
    exact Munge_first_stale samplePackage staleUnitNoE2EPR _ 0 rfl rfl rfl rfl rfl
      (by decide) (by decide)
  refine ⟨rfl, by decide, ?_, hc⟩
  rw [action_trigger_iff, hc]
  simp

/-- C2, amended. On a green pull request where a required context has no
status time and no required context before it in `requiredContexts` has a
status time more than 96 hours before `now`, `Munge` takes no action: it calls
neither `WriteComment` nor `WaitForPending`. -/
theorem Munge_missing_time_noop (k : Package) (obj : MungeObject) (now : Time)
    (_hs : obj.IsStatusSuccess (requiredContexts k) = true)
    (h : obj.GetStatusTime k.jenkinsUnitContext = none ∨
      (obj.GetStatusTime k.jenkinsE2EContext = none ∧
        ∀ t, obj.GetStatusTime k.jenkinsUnitContext = some t → ¬ now - t > 96 * Hour)) :
    action (StaleGreenCI.Munge k obj (instant now)) = .NoOp ∧
      (StaleGreenCI.Munge k obj (instant now)).calls = [] := by
  have key : (StaleGreenCI.mungeLoop k obj (instant now) 0 (requiredContexts k)).calls = [] := by
    unfold requiredContexts
    rcases h with h | ⟨he, hu⟩
    · exact mungeLoop_cons_none k obj _ 0 _ _ h
    · cases hg : obj.GetStatusTime k.jenkinsUnitContext with
      | none => exact mungeLoop_cons_none k obj _ 0 _ _ hg
      | some t =>
        rw [mungeLoop_cons_fresh k obj _ 0 _ _ t hg (hu t hg)]
        exact mungeLoop_cons_none k obj _ 1 _ _ he
  have hc : (StaleGreenCI.Munge k obj (instant now)).calls = [] := by
    rcases Munge_calls_subsingleton k obj (instant now) with h0 | h0
    · exact h0
    · rw [h0, key]
  exact ⟨(action_noop_iff _).2 hc, hc⟩

/-- The amended C2 on a pull request whose unit context has no status time
while its e2e context is 100 hours old. -/
theorem Munge_missing_time_noop_witness :
    action (StaleGreenCI.Munge samplePackage noUnitTimePR (instant (100 * Hour))) = .NoOp ∧
      (StaleGreenCI.Munge samplePackage noUnitTimePR (instant (100 * Hour))).calls = [] :=
  Munge_missing_time_noop samplePackage noUnitTimePR (100 * Hour) rfl (Or.inl (by decide))

/-- C3. When the object is not a pull request, or lacks the LGTM label, or is
reported not mergeable, or is not green on the required contexts, `Munge`
takes no action, whatever the clock and the status times; and whenever `Munge`
re-triggers, all four preconditions hold. -/
theorem Munge_precondition_short_circuit (k : Package) (obj : MungeObject) (clock : Clock) :
    ((obj.IsPR = false ∨ obj.HasLabel k.lgtmLabel = false ∨ obj.IsMergeable.1 = false ∨
        obj.IsStatusSuccess (requiredContexts k) = false) →
      action (StaleGreenCI.Munge k obj clock) = .NoOp ∧
        (StaleGreenCI.Munge k obj clock).calls = []) ∧
    (action (StaleGreenCI.Munge k obj clock) = .TriggerRetest →
      obj.IsPR = true ∧ obj.HasLabel k.lgtmLabel = true ∧ obj.IsMergeable.1 = true ∧
        obj.IsStatusSuccess (requiredContexts k) = true) := by
  have fails : (obj.IsPR = false ∨ obj.HasLabel k.lgtmLabel = false ∨
      obj.IsMergeable.1 = false ∨ obj.IsStatusSuccess (requiredContexts k) = false) →
      (StaleGreenCI.Munge k obj clock).calls = [] := by
    intro h
    rw [Munge_of_precondition_fails k obj clock (by tauto)]
  refine ⟨fun h => ⟨(action_noop_iff _).2 (fails h), fails h⟩, fun ht => ?_⟩
  rw [action_trigger_iff] at ht
  by_contra hn
  apply ht
  apply fails
  cases h1 : obj.IsPR <;> cases h2 : obj.HasLabel k.lgtmLabel <;>
    cases h3 : obj.IsMergeable.1 <;> cases h4 : obj.IsStatusSuccess (requiredContexts k) <;>
    simp_all

/-- C3 on two pull requests: one without the label, on which nothing happens,
and one that is re-triggered, which meets the four preconditions. -/
theorem Munge_precondition_short_circuit_witness :
    (action (StaleGreenCI.Munge samplePackage unlabelledPR (instant (100 * Hour))) = .NoOp ∧
      (StaleGreenCI.Munge samplePackage unlabelledPR (instant (100 * Hour))).calls = []) ∧
    (staleUnitPR.IsPR = true ∧ staleUnitPR.HasLabel samplePackage.lgtmLabel = true ∧
      staleUnitPR.IsMergeable.1 = true ∧
      staleUnitPR.IsStatusSuccess (requiredContexts samplePackage) = true) :=
  ⟨(Munge_precondition_short_circuit samplePackage unlabelledPR (instant (100 * Hour))).1
      (Or.inr (Or.inl rfl)),
    (Munge_precondition_short_circuit samplePackage staleUnitPR (instant (100 * Hour))).2
      (by
        rw [action_trigger_iff, Munge_first_stale samplePackage staleUnitPR _ 0 rfl rfl rfl
          rfl rfl (by decide) (by decide)]
        simp)⟩

/-- C4. On a pull request passing the four preconditions whose required
contexts both have a status time at most 96 hours before `now` (exactly 96
hours included), `Munge` takes no action. -/
theorem Munge_fresh_noop (k : Package) (obj : MungeObject) (now tu te : Time)
    (hpr : obj.IsPR = true) (hl : obj.HasLabel k.lgtmLabel = true)
    (hm : obj.IsMergeable = (true, none))
    (hs : obj.IsStatusSuccess (requiredContexts k) = true)
    (hu : obj.GetStatusTime k.jenkinsUnitContext = some tu)
    (he : obj.GetStatusTime k.jenkinsE2EContext = some te)
    (hfu : now - tu ≤ 96 * Hour) (hfe : now - te ≤ 96 * Hour) :
    action (StaleGreenCI.Munge k obj (instant now)) = .NoOp ∧
      (StaleGreenCI.Munge k obj (instant now)).calls = [] := by
  have hc : (StaleGreenCI.Munge k obj (instant now)).calls = [] := by
    rw [Munge_of_preconditions k obj _ hpr hl (by rw [hm]) (by rw [hm]) hs,
      mungeLoop_both_present k obj now tu te hu he, if_neg]
    rintro (h | h)
    · exact absurd hfu (not_le.2 h)
    · exact absurd hfe (not_le.2 h)
  exact ⟨(action_noop_iff _).2 hc, hc⟩

/-- C4 at the boundary: the unit context exactly 96 hours old, the e2e context
6 hours old. -/
theorem Munge_fresh_noop_witness :
    action (StaleGreenCI.Munge samplePackage staleUnitPR (instant (96 * Hour))) = .NoOp ∧
      (StaleGreenCI.Munge samplePackage staleUnitPR (instant (96 * Hour))).calls = [] :=
  Munge_fresh_noop samplePackage staleUnitPR (96 * Hour) 0 (90 * Hour) rfl rfl rfl rfl
    (by decide) (by decide) (by decide) (by decide)

/-! ## The notification reconciler -/

/-- On a comment of the merge bot that has a body, `isStaleComment` returns:
false when the body differs from `greenMsgBody`, and otherwise the answer of
`commentBeforeLastCI`. -/
theorem isStaleComment_of_body (k : Package) (obj : MungeObject) (comment : IssueComment)
    (body : String) (hb : comment.Body = some body) :
    (StaleGreenCI.isStaleComment k obj comment).result =
      .ok (k.mergeBotComment comment && (body == greenMsgBody k) &&
        commentBeforeLastCI k obj comment) := by
  unfold StaleGreenCI.isStaleComment
  cases hm : k.mergeBotComment comment <;> by_cases he : body = greenMsgBody k <;>
    cases hc : commentBeforeLastCI k obj comment <;> simp [hb, he, hc]

/-- On a comment that is not the merge bot's, `isStaleComment` returns false. -/
theorem isStaleComment_of_not_mergeBot (k : Package) (obj : MungeObject)
    (comment : IssueComment) (hm : k.mergeBotComment comment = false) :
    (StaleGreenCI.isStaleComment k obj comment).result = .ok false := by
  simp [StaleGreenCI.isStaleComment, hm]

/-- A comment created after the grace window of a required context is not
before the last CI run. -/
theorem commentBeforeLastCI_late (k : Package) (obj : MungeObject) (comment : IssueComment)
    (commentTime t : Time) (c : String) (hc : c ∈ requiredContexts k)
    (hct : comment.CreatedAt = some commentTime) (ht : obj.GetStatusTime c = some t)
    (hlate : commentTime > t + 30 * Minute) :
    commentBeforeLastCI k obj comment = false := by
  rw [← Bool.not_eq_true, commentBeforeLastCI_iff]
  rintro ⟨_, ct, hct2, hall⟩
  rw [hct] at hct2
  obtain rfl := Option.some.inj hct2
  obtain ⟨t2, ht2, hle⟩ := hall c hc
  rw [ht] at ht2
  obtain rfl := Option.some.inj ht2
  exact absurd hle (not_le.2 hlate)

/-- C5. The method `isStaleComment` returns true exactly when the comment is
the merge bot's, its body is `greenMsgBody`, the required contexts are green,
the comment has a creation time, and every required context has a status time
with the creation time at most 30 minutes after it. -/
theorem isStaleComment_true_iff (k : Package) (obj : MungeObject) (comment : IssueComment) :
    (StaleGreenCI.isStaleComment k obj comment).result = .ok true ↔
      k.mergeBotComment comment = true ∧
      comment.Body = some (greenMsgBody k) ∧
      obj.IsStatusSuccess (requiredContexts k) = true ∧
      ∃ commentTime, comment.CreatedAt = some commentTime ∧
        ∀ c ∈ requiredContexts k,
          ∃ t, obj.GetStatusTime c = some t ∧ commentTime ≤ t + 30 * Minute := by
  rw [← commentBeforeLastCI_iff]
  cases hb : comment.Body with
  | none =>
    cases hm : k.mergeBotComment comment <;> simp [StaleGreenCI.isStaleComment, hb, hm]
  | some body =>
    rw [isStaleComment_of_body k obj comment body hb]
    simp [Bool.and_eq_true, and_assoc]

/-- C6. A comment of the merge bot with body `greenMsgBody`, created at or
before the status time plus 30 minutes of each of the two required contexts,
on a pull request that is green with both status times present, is stale. -/
theorem isStaleComment_of_early (k : Package) (obj : MungeObject) (comment : IssueComment)
    (commentTime tu te : Time)
    (hm : k.mergeBotComment comment = true)
    (hb : comment.Body = some (greenMsgBody k))
    (hct : comment.CreatedAt = some commentTime)
    (hs : obj.IsStatusSuccess (requiredContexts k) = true)
    (hu : obj.GetStatusTime k.jenkinsUnitContext = some tu)
    (he : obj.GetStatusTime k.jenkinsE2EContext = some te)
    (hlu : commentTime ≤ tu + 30 * Minute) (hle : commentTime ≤ te + 30 * Minute) :
    (StaleGreenCI.isStaleComment k obj comment).result = .ok true := by
  have hc : commentBeforeLastCI k obj comment = true := by
    rw [commentBeforeLastCI_iff]
    refine ⟨hs, commentTime, hct, ?_⟩
    intro c hc
    simp only [requiredContexts, List.mem_cons, List.mem_singleton, List.not_mem_nil,
      or_false] at hc
    rcases hc with rfl | rfl
    · exact ⟨tu, hu, hlu⟩
    · exact ⟨te, he, hle⟩
  rw [isStaleComment_of_body k obj comment _ hb, hm, hc]
  simp

/-- The example of C6: the comment is created 20 minutes after the earlier of
the two status times (0 for the unit context, 90 hours for the e2e context). -/
theorem isStaleComment_of_early_witness :
    (StaleGreenCI.isStaleComment samplePackage staleUnitPR earlyBotComment).result = .ok true :=
  isStaleComment_of_early samplePackage staleUnitPR earlyBotComment (0 + 20 * Minute) 0
    (90 * Hour) (by decide) rfl (by decide) rfl (by decide) (by decide) (by decide) (by decide)

/-- On a comment that `mergeBotComment` accepts and that has no body,
`isStaleComment` panics when it reads `*comment.Body`. -/
theorem isStaleComment_of_nil_body (k : Package) (obj : MungeObject) (comment : IssueComment)
    (hm : k.mergeBotComment comment = true) (hb : comment.Body = none) :
    (StaleGreenCI.isStaleComment k obj comment).result = .error .nilDereference := by
  simp [StaleGreenCI.isStaleComment, hm, hb]

/-- The function `mergeBotComment` of `checkedPackage` accepts no comment
without a body. -/
theorem checkedPackage_checks_body (c : IssueComment)
    (h : checkedPackage.mergeBotComment c = true) : c.Body ≠ none := by
  intro hb
  obtain ⟨body, user, created⟩ := c
  simp only at hb
  subst hb
  cases user <;> simp [checkedPackage] at h

/-- The cut-off of the grace window wherever `isStaleComment` returns: on a
comment that has a body or is not the merge bot's, created after the status
time plus 30 minutes of a required context, it returns false. -/
theorem isStaleComment_late (k : Package) (obj : MungeObject) (comment : IssueComment)
    (commentTime t : Time) (c : String) (hc : c ∈ requiredContexts k)
    (hct : comment.CreatedAt = some commentTime) (ht : obj.GetStatusTime c = some t)
    (hlate : commentTime > t + 30 * Minute)
    (hret : comment.Body ≠ none ∨ k.mergeBotComment comment = false) :
    (StaleGreenCI.isStaleComment k obj comment).result = .ok false := by
  rcases hret with hb | hm
  · obtain ⟨body, hbody⟩ := Option.ne_none_iff_exists'.1 hb
    rw [isStaleComment_of_body k obj comment body hbody,
      commentBeforeLastCI_late k obj comment commentTime t c hc hct ht hlate]
    simp
  · exact isStaleComment_of_not_mergeBot k obj comment hm

/-- C7. For a package whose `mergeBotComment` accepts no comment without a
body: when a required context has a status time and the comment is created
after that time plus 30 minutes, `isStaleComment` returns false and
`commentBeforeLastCI` returns false, whoever the author is and whatever the
body, the aggregate status and the other status time are. -/
theorem isStaleComment_late_false (k : Package) (obj : MungeObject) (comment : IssueComment)
    (commentTime t : Time) (c : String)
    (hvalid : ∀ c2, k.mergeBotComment c2 = true → c2.Body ≠ none)
    (hc : c ∈ requiredContexts k)
    (hct : comment.CreatedAt = some commentTime) (ht : obj.GetStatusTime c = some t)
    (hlate : commentTime > t + 30 * Minute) :
    (StaleGreenCI.isStaleComment k obj comment).result = .ok false ∧
      commentBeforeLastCI k obj comment = false := by
  refine ⟨?_, commentBeforeLastCI_late k obj comment commentTime t c hc hct ht hlate⟩
  apply isStaleComment_late k obj comment commentTime t c hc hct ht hlate
  cases hm : k.mergeBotComment comment with
  | false => exact Or.inr rfl
  | true => exact Or.inl (hvalid comment hm)

/-- C7 on the munger's own comment, created one second after the grace window
of the unit context of `staleUnitPR`. -/
theorem isStaleComment_late_false_witness :
    (StaleGreenCI.isStaleComment checkedPackage staleUnitPR lateBotComment).result = .ok false ∧
      commentBeforeLastCI checkedPackage staleUnitPR lateBotComment = false :=
  isStaleComment_late_false checkedPackage staleUnitPR lateBotComment
    (0 + 30 * Minute + 1000000000) 0 "Jenkins unit/integration" checkedPackage_checks_body
    (by simp [requiredContexts, checkedPackage, samplePackage]) (by decide) (by decide)
    (by decide)

/-! ## The effects of a re-trigger -/

/-- C8, against the claim as stated. On `commentFailsPR` the munger decides to
re-trigger, `WriteComment` returns an error, and `WaitForPending` is called
all the same. -/
theorem Munge_comment_fails_counterexample :
    action (StaleGreenCI.Munge samplePackage commentFailsPR (instant (100 * Hour)))
      = .TriggerRetest ∧
    commentFailsPR.WriteComment (greenMsgBody samplePackage) = some "422 Unprocessable Entity" ∧
    Call.WaitForPending (requiredContexts samplePackage) ∈
      (StaleGreenCI.Munge samplePackage commentFailsPR (instant (100 * Hour))).calls := by
  have hc := Munge_first_stale samplePackage commentFailsPR (instant (100 * Hour)) 0
    rfl rfl rfl rfl rfl (by decide) (by decide)
  refine ⟨?_, rfl, ?_⟩
  · rw [action_trigger_iff, hc]
    simp
  · rw [hc]
    simp

/-- C8, amended. Whenever `Munge` decides to re-trigger and `WriteComment`
returns an error, `WaitForPending` is called on the required contexts after
the comment: the result of `WriteComment` is dropped, and the run is the one
`Munge` makes whatever `WriteComment` answers. -/
theorem Munge_comment_error_dropped (k : Package) (obj : MungeObject) (clock : Clock)
    (err : Error) (htrig : action (StaleGreenCI.Munge k obj clock) = .TriggerRetest)
    (_herr : obj.WriteComment (greenMsgBody k) = some err) :
    (StaleGreenCI.Munge k obj clock).calls =
        [.WriteComment (greenMsgBody k), .WaitForPending (requiredContexts k)] ∧
      ∀ w, StaleGreenCI.Munge k { obj with WriteComment := w } clock =
        StaleGreenCI.Munge k obj clock := by
  constructor
  · rw [action_trigger_iff] at htrig
    rcases Munge_calls k obj clock with h | h
    · exact absurd h htrig
    · exact h
  · intro w
    simp only [StaleGreenCI.Munge, mungeLoop_WriteComment_irrelevant]

/-- The amended C8 on `commentFailsPR`. -/
theorem Munge_comment_error_dropped_witness :
    (StaleGreenCI.Munge samplePackage commentFailsPR (instant (100 * Hour))).calls =
        [.WriteComment (greenMsgBody samplePackage),
         .WaitForPending (requiredContexts samplePackage)] ∧
      ∀ w, StaleGreenCI.Munge samplePackage { commentFailsPR with WriteComment := w }
          (instant (100 * Hour)) =
        StaleGreenCI.Munge samplePackage commentFailsPR (instant (100 * Hour)) :=
  Munge_comment_error_dropped samplePackage commentFailsPR (instant (100 * Hour))
    "422 Unprocessable Entity"
    (by
      rw [action_trigger_iff, Munge_first_stale samplePackage commentFailsPR _ 0 rfl rfl rfl
        rfl rfl (by decide) (by decide)]
      simp)
    rfl

/-- C9. Whenever `Munge` re-triggers, the calls it makes are
`WriteComment greenMsgBody` first and `WaitForPending requiredContexts`
second, and nothing else; with any other answer of `WaitForPending`, error or
not, the calls and the action are the same. -/
theorem Munge_trigger_trace (k : Package) (obj : MungeObject) (clock : Clock)
    (htrig : action (StaleGreenCI.Munge k obj clock) = .TriggerRetest) :
    (StaleGreenCI.Munge k obj clock).calls =
        [.WriteComment (greenMsgBody k), .WaitForPending (requiredContexts k)] ∧
      ∀ w, (StaleGreenCI.Munge k { obj with WaitForPending := w } clock).calls =
            (StaleGreenCI.Munge k obj clock).calls ∧
          action (StaleGreenCI.Munge k { obj with WaitForPending := w } clock) =
            .TriggerRetest := by
  have hcalls : ∀ w, (StaleGreenCI.Munge k { obj with WaitForPending := w } clock).calls =
      (StaleGreenCI.Munge k obj clock).calls := by
    intro w
    unfold StaleGreenCI.Munge
    split_ifs <;> simp [mungeLoop_WaitForPending_calls]
  rw [action_trigger_iff] at htrig
  refine ⟨?_, fun w => ⟨hcalls w, ?_⟩⟩
  · rcases Munge_calls k obj clock with h | h
    · exact absurd h htrig
    · exact h
  · rw [action_trigger_iff, hcalls w]
    exact htrig

/-- C9 on `waitFailsPR`, where `WaitForPending` returns an error. -/
theorem Munge_trigger_trace_witness :
    (StaleGreenCI.Munge samplePackage waitFailsPR (instant (100 * Hour))).calls =
        [.WriteComment (greenMsgBody samplePackage),
         .WaitForPending (requiredContexts samplePackage)] ∧
      ∀ w, (StaleGreenCI.Munge samplePackage { waitFailsPR with WaitForPending := w }
              (instant (100 * Hour))).calls =
            (StaleGreenCI.Munge samplePackage waitFailsPR (instant (100 * Hour))).calls ∧
          action (StaleGreenCI.Munge samplePackage { waitFailsPR with WaitForPending := w }
              (instant (100 * Hour))) = .TriggerRetest :=
  Munge_trigger_trace samplePackage waitFailsPR (instant (100 * Hour))
    (by
      rw [action_trigger_iff, Munge_first_stale samplePackage waitFailsPR _ 0 rfl rfl rfl
        rfl rfl (by decide) (by decide)]
      simp)

/-- C10. When `IsMergeable` returns a non-nil error, whatever boolean comes
with it and whatever the label, the status and the status times are, `Munge`
takes no action. -/
theorem Munge_unknown_mergeable_noop (k : Package) (obj : MungeObject) (clock : Clock)
    (herr : obj.IsMergeable.2 ≠ none) :
    action (StaleGreenCI.Munge k obj clock) = .NoOp ∧
      (StaleGreenCI.Munge k obj clock).calls = [] := by
  have hc : (StaleGreenCI.Munge k obj clock).calls = [] := by
    rw [Munge_of_precondition_fails k obj clock (Or.inr (Or.inr (Or.inr (Or.inl herr))))]
  exact ⟨(action_noop_iff _).2 hc, hc⟩

/-- C10 on `unknownMergeablePR`: the boolean is true, the error is not nil, and
the unit context is 100 hours old. -/
theorem Munge_unknown_mergeable_noop_witness :
    action (StaleGreenCI.Munge samplePackage unknownMergeablePR (instant (100 * Hour))) = .NoOp ∧
      (StaleGreenCI.Munge samplePackage unknownMergeablePR (instant (100 * Hour))).calls = [] :=
  Munge_unknown_mergeable_noop samplePackage unknownMergeablePR (instant (100 * Hour))
    (by decide)

/-! ## The comment body -/

/-- C11. The variable `greenMsgBody`, the format `greenMsgFormat` filled with
`staleGreenCIHours = 96`, is the bot mention, a blank line and the sentence
with the decimal 96, for a bot name without a percent sign (a GitHub login has
none); and it is the only body that `Munge` passes to `WriteComment`. -/
theorem greenMsgBody_constant (k : Package) (h : '%' ∉ k.jenkinsBotName.toList) :
    greenMsgBody k =
        "@" ++ k.jenkinsBotName ++
          " test this\n\nTests are more than 96 hours old. Re-running tests." ∧
      ∀ obj clock body, Call.WriteComment body ∈ (StaleGreenCI.Munge k obj clock).calls →
        body = greenMsgBody k := by
  refine ⟨greenMsgBody_eq k h, ?_⟩
  intro obj clock body hmem
  rcases Munge_calls k obj clock with hc | hc
  · rw [hc] at hmem
    simp at hmem
  · rw [hc] at hmem
    simpa using hmem

/-- C11 for the bot name `k8s-bot`. -/
theorem greenMsgBody_constant_witness :
    greenMsgBody samplePackage =
        "@" ++ "k8s-bot" ++
          " test this\n\nTests are more than 96 hours old. Re-running tests." ∧
      ∀ obj clock body,
        Call.WriteComment body ∈ (StaleGreenCI.Munge samplePackage obj clock).calls →
        body = greenMsgBody samplePackage :=
  greenMsgBody_constant samplePackage (by decide)

/-! ## The reconciler on other comments -/

/-- C12. On a comment for which `mergeBotComment` is false, `isStaleComment`
returns false, whatever the body, the creation time, the aggregate status and
the status times. -/
theorem isStaleComment_not_mergeBot_false (k : Package) (obj : MungeObject)
    (comment : IssueComment) (hm : k.mergeBotComment comment = false) :
    (StaleGreenCI.isStaleComment k obj comment).result = .ok false :=
  isStaleComment_of_not_mergeBot k obj comment hm

/-- C12 on the munger's text posted in time by somebody else. -/
theorem isStaleComment_not_mergeBot_false_witness :
    (StaleGreenCI.isStaleComment samplePackage staleUnitPR humanComment).result = .ok false :=
  isStaleComment_not_mergeBot_false samplePackage staleUnitPR humanComment (by decide)

/-- C13. On a comment whose body is present and differs from `greenMsgBody`,
`isStaleComment` returns false, whoever the author is and whatever the times
are. -/
theorem isStaleComment_other_body_false (k : Package) (obj : MungeObject)
    (comment : IssueComment) (body : String) (hb : comment.Body = some body)
    (hne : body ≠ greenMsgBody k) :
    (StaleGreenCI.isStaleComment k obj comment).result = .ok false := by
  rw [isStaleComment_of_body k obj comment body hb]
  have h1 : (body == greenMsgBody k) = false := by simpa using hne
  simp [h1]

/-- C13 on a comment of the merge bot, posted in time, whose body is the
munger's text followed by a blank. -/
theorem isStaleComment_other_body_false_witness :
    (StaleGreenCI.isStaleComment samplePackage staleUnitPR trailingBlankComment).result =
      .ok false :=
  isStaleComment_other_body_false samplePackage staleUnitPR trailingBlankComment
    (greenMsgBody samplePackage ++ " ") rfl
    (by
      intro h
      have h2 := congrArg String.length h
      simp only [String.length_append, add_right_eq_self] at h2
      exact absurd h2 (by decide))

/-- C14. For a package whose `mergeBotComment` accepts no comment without a
body, `isStaleComment` returns a boolean on every pull request and every
comment and calls neither `WriteComment` nor `WaitForPending`; on a comment
whose `Body` is nil or whose `CreatedAt` is nil it returns false. -/
theorem isStaleComment_total (k : Package) (obj : MungeObject) (comment : IssueComment)
    (hvalid : ∀ c, k.mergeBotComment c = true → c.Body ≠ none) :
    (∃ b, (StaleGreenCI.isStaleComment k obj comment).result = .ok b) ∧
      (StaleGreenCI.isStaleComment k obj comment).calls = [] ∧
      (comment.Body = none →
        (StaleGreenCI.isStaleComment k obj comment).result = .ok false) ∧
      (comment.CreatedAt = none →
        (StaleGreenCI.isStaleComment k obj comment).result = .ok false) := by
  have hret : comment.Body ≠ none ∨ k.mergeBotComment comment = false := by
    cases hm : k.mergeBotComment comment with
    | false => exact Or.inr rfl
    | true => exact Or.inl (hvalid comment hm)
  refine ⟨isStaleComment_returns k obj comment hret, isStaleComment_calls k obj comment, ?_, ?_⟩
  · intro hb
    rcases hret with h | h
    · exact absurd hb h
    · exact isStaleComment_of_not_mergeBot k obj comment h
  · intro hct
    rcases hret with h | h
    · obtain ⟨body, hbody⟩ := Option.ne_none_iff_exists'.1 h
      have hcb : commentBeforeLastCI k obj comment = false := by
        unfold commentBeforeLastCI
        cases hs : obj.IsStatusSuccess (requiredContexts k) <;> simp [hct]
      rw [isStaleComment_of_body k obj comment body hbody, hcb]
      simp
    · exact isStaleComment_of_not_mergeBot k obj comment h

/-- C14 on `nilBodyComment`, a comment of the merge bot whose `Body` is nil. -/
theorem isStaleComment_total_witness :
    (∃ b, (StaleGreenCI.isStaleComment checkedPackage staleUnitPR nilBodyComment).result
        = .ok b) ∧
      (StaleGreenCI.isStaleComment checkedPackage staleUnitPR nilBodyComment).calls = [] ∧
      (nilBodyComment.Body = none →
        (StaleGreenCI.isStaleComment checkedPackage staleUnitPR nilBodyComment).result
          = .ok false) ∧
      (nilBodyComment.CreatedAt = none →
        (StaleGreenCI.isStaleComment checkedPackage staleUnitPR nilBodyComment).result
          = .ok false) :=
  isStaleComment_total checkedPackage staleUnitPR nilBodyComment checkedPackage_checks_body

/-! ## Order, time and the evaluator -/

/-- C15, against the claim as stated. The pull request `staleUnitNoE2EPR` has a
unit context 100 hours old and no status time for the e2e context: with
`requiredContexts` in the order of the source `Munge` re-triggers, with the
list reversed it takes no action. -/
theorem Munge_order_counterexample :
    requiredContexts (swapContexts samplePackage) = (requiredContexts samplePackage).reverse ∧
    staleUnitNoE2EPR.IsStatusSuccess (requiredContexts (swapContexts samplePackage)) =
      staleUnitNoE2EPR.IsStatusSuccess (requiredContexts samplePackage) ∧
    action (StaleGreenCI.Munge samplePackage staleUnitNoE2EPR (instant (100 * Hour)))
      = .TriggerRetest ∧
    action (StaleGreenCI.Munge (swapContexts samplePackage) staleUnitNoE2EPR
      (instant (100 * Hour))) = .NoOp := by
  refine ⟨rfl, rfl, ?_, ?_⟩
  · rw [action_trigger_iff, Munge_first_stale samplePackage staleUnitNoE2EPR _ 0 rfl rfl rfl
      rfl rfl (by decide) (by decide)]
    simp
  · rw [action_noop_iff]
    rcases Munge_calls_subsingleton (swapContexts samplePackage) staleUnitNoE2EPR
      (instant (100 * Hour)) with h | h
    · exact h
    · rw [h]
      exact mungeLoop_cons_none (swapContexts samplePackage) staleUnitNoE2EPR _ 0
        "Jenkins GCE e2e" ["Jenkins unit/integration"] (by decide)

/-- C15, amended. When no required context lacks a status time while the
other one is more than 96 hours old (in particular when both status times are
present), `Munge` takes the same action with `requiredContexts` in the order
of the source and with the list reversed; `IsStatusSuccess` is taken to give
one answer for the two orders of the names. -/
theorem Munge_order_irrelevant (k : Package) (obj : MungeObject) (now : Time)
    (hsym : obj.IsStatusSuccess (requiredContexts (swapContexts k)) =
      obj.IsStatusSuccess (requiredContexts k))
    (hunit : obj.GetStatusTime k.jenkinsUnitContext = none →
      ∀ t, obj.GetStatusTime k.jenkinsE2EContext = some t → ¬ now - t > 96 * Hour)
    (he2e : obj.GetStatusTime k.jenkinsE2EContext = none →
      ∀ t, obj.GetStatusTime k.jenkinsUnitContext = some t → ¬ now - t > 96 * Hour) :
    action (StaleGreenCI.Munge (swapContexts k) obj (instant now)) =
      action (StaleGreenCI.Munge k obj (instant now)) := by
  apply action_eq_of_calls
  by_cases hpre : obj.IsPR = true ∧ obj.HasLabel k.lgtmLabel = true ∧
      obj.IsMergeable.1 = true ∧ obj.IsMergeable.2 = none ∧
      obj.IsStatusSuccess (requiredContexts k) = true
  · obtain ⟨h1, h2, h3, h4, h5⟩ := hpre
    rw [Munge_of_preconditions k obj _ h1 h2 h3 h4 h5,
      Munge_of_preconditions (swapContexts k) obj _ h1 h2 h3 h4 (hsym.trans h5)]
    have hsw : requiredContexts (swapContexts k) =
        [k.jenkinsE2EContext, k.jenkinsUnitContext] := rfl
    have hrc : requiredContexts k = [k.jenkinsUnitContext, k.jenkinsE2EContext] := rfl
    cases hu : obj.GetStatusTime k.jenkinsUnitContext with
    | none =>
      cases he : obj.GetStatusTime k.jenkinsE2EContext with
      | none =>
        rw [hsw, hrc, mungeLoop_cons_none _ obj _ 0 _ _ he, mungeLoop_cons_none _ obj _ 0 _ _ hu]
      | some te =>
        rw [hsw, hrc, mungeLoop_cons_fresh _ obj _ 0 _ _ te he (hunit hu te he),
          mungeLoop_cons_none _ obj _ 1 _ _ hu, mungeLoop_cons_none _ obj _ 0 _ _ hu]
    | some tu =>
      cases he : obj.GetStatusTime k.jenkinsE2EContext with
      | none =>
        rw [hsw, hrc, mungeLoop_cons_none _ obj _ 0 _ _ he,
          mungeLoop_cons_fresh _ obj _ 0 _ _ tu hu (he2e he tu hu),
          mungeLoop_cons_none _ obj _ 1 _ _ he]
      | some te =>
        rw [mungeLoop_both_present k obj now tu te hu he,
          mungeLoop_both_present (swapContexts k) obj now te tu he hu]
        by_cases c1 : now - tu > 96 * Hour <;> by_cases c2 : now - te > 96 * Hour <;>
          simp [c1, c2]
  · have hf : obj.IsPR = false ∨ obj.HasLabel k.lgtmLabel = false ∨
        obj.IsMergeable.1 = false ∨ obj.IsMergeable.2 ≠ none ∨
        obj.IsStatusSuccess (requiredContexts k) = false := by
      cases h1 : obj.IsPR <;> cases h2 : obj.HasLabel k.lgtmLabel <;>
        cases h3 : obj.IsMergeable.1 <;> cases h4 : obj.IsStatusSuccess (requiredContexts k) <;>
        cases h5 : obj.IsMergeable.2 <;> simp_all
    have hf2 : obj.IsPR = false ∨ obj.HasLabel (swapContexts k).lgtmLabel = false ∨
        obj.IsMergeable.1 = false ∨ obj.IsMergeable.2 ≠ none ∨
        obj.IsStatusSuccess (requiredContexts (swapContexts k)) = false := by
      rw [hsym]
      exact hf
    rw [Munge_of_precondition_fails k obj _ hf,
      Munge_of_precondition_fails (swapContexts k) obj _ hf2]

/-- The amended C15 on `staleUnitPR`, whose two status times are present. -/
theorem Munge_order_irrelevant_witness :
    action (StaleGreenCI.Munge (swapContexts samplePackage) staleUnitPR (instant (100 * Hour))) =
      action (StaleGreenCI.Munge samplePackage staleUnitPR (instant (100 * Hour))) :=
  Munge_order_irrelevant samplePackage staleUnitPR (100 * Hour) rfl
    (fun h => absurd h (by decide)) (fun h => absurd h (by decide))

/-- C16, against the claim as stated. On the unchanged pull request
`staleUnitPR`, `Munge` takes no action at the instant `96 * Hour` and
re-triggers at the instant `100 * Hour`. -/
theorem Munge_idempotent_counterexample :
    action (StaleGreenCI.Munge samplePackage staleUnitPR (instant (96 * Hour))) = .NoOp ∧
    action (StaleGreenCI.Munge samplePackage staleUnitPR (instant (100 * Hour)))
      = .TriggerRetest := by
  constructor
  · rw [action_noop_iff, Munge_of_preconditions samplePackage staleUnitPR _ rfl rfl rfl rfl rfl,
      mungeLoop_both_present samplePackage staleUnitPR (96 * Hour) 0 (90 * Hour) (by decide)
        (by decide), if_neg (by decide)]
  · rw [action_trigger_iff, Munge_first_stale samplePackage staleUnitPR _ 0 rfl rfl rfl
      rfl rfl (by decide) (by decide)]
    simp

/-- C16, amended. On an unchanged pull request, `Munge` makes the same run,
and so takes the same action, at any two evaluation instants at which every
required context with a status time is on the same side of the 96 hours. -/
theorem Munge_same_side (k : Package) (obj : MungeObject) (now other : Time)
    (h : ∀ c ∈ requiredContexts k, ∀ t, obj.GetStatusTime c = some t →
      (now - t > 96 * Hour ↔ other - t > 96 * Hour)) :
    StaleGreenCI.Munge k obj (instant now) = StaleGreenCI.Munge k obj (instant other) ∧
      action (StaleGreenCI.Munge k obj (instant now)) =
        action (StaleGreenCI.Munge k obj (instant other)) := by
  have hrun : StaleGreenCI.Munge k obj (instant now) =
      StaleGreenCI.Munge k obj (instant other) := by
    unfold StaleGreenCI.Munge
    rw [mungeLoop_same_side k obj now other 0 0 (requiredContexts k) h]
  exact ⟨hrun, by rw [hrun]⟩

/-- The amended C16 on `staleUnitPR` at the instants `100 * Hour` and
`101 * Hour`: the unit context is stale at both, the e2e context at neither. -/
theorem Munge_same_side_witness :
    StaleGreenCI.Munge samplePackage staleUnitPR (instant (100 * Hour)) =
        StaleGreenCI.Munge samplePackage staleUnitPR (instant (101 * Hour)) ∧
      action (StaleGreenCI.Munge samplePackage staleUnitPR (instant (100 * Hour))) =
        action (StaleGreenCI.Munge samplePackage staleUnitPR (instant (101 * Hour))) :=
  Munge_same_side samplePackage staleUnitPR (100 * Hour) (101 * Hour) (by
    intro c hc t ht
    simp only [requiredContexts, samplePackage, List.mem_cons, List.mem_singleton,
      List.not_mem_nil, or_false] at hc
    rcases hc with rfl | rfl
    · have h0 : t = 0 := (Option.some.inj ht).symm
      subst h0
      decide
    · have h0 : t = 90 * Hour := (Option.some.inj ht).symm
      subst h0
      decide)

/-- C17. On a pull request passing the four preconditions whose first required
context has a status time more than 96 hours before `now`, `Munge` re-triggers,
and its run is the same whatever `GetStatusTime` answers for the other
contexts; and when the first required context has no status time, `Munge`
takes no action, again whatever `GetStatusTime` answers for the others. -/
theorem Munge_first_context_decides (k : Package) (obj : MungeObject) (now : Time) :
    (∀ t, obj.IsPR = true → obj.HasLabel k.lgtmLabel = true →
      obj.IsMergeable = (true, none) → obj.IsStatusSuccess (requiredContexts k) = true →
      obj.GetStatusTime k.jenkinsUnitContext = some t → now - t > 96 * Hour →
      action (StaleGreenCI.Munge k obj (instant now)) = .TriggerRetest ∧
        ∀ g : String → Option Time, g k.jenkinsUnitContext = some t →
          StaleGreenCI.Munge k { obj with GetStatusTime := g } (instant now) =
            StaleGreenCI.Munge k obj (instant now)) ∧
    (obj.GetStatusTime k.jenkinsUnitContext = none →
      action (StaleGreenCI.Munge k obj (instant now)) = .NoOp ∧
        ∀ g : String → Option Time, g k.jenkinsUnitContext = none →
          StaleGreenCI.Munge k { obj with GetStatusTime := g } (instant now) =
            StaleGreenCI.Munge k obj (instant now)) := by
  constructor
  · intro t hpr hl hm hs hu hstale
    constructor
    · rw [action_trigger_iff, Munge_first_stale k obj _ t hpr hl (by rw [hm]) (by rw [hm]) hs
        hu hstale]
      simp
    · intro g hg
      have h1 := (since_stale_iff now t).2 hstale
      simp [StaleGreenCI.Munge, StaleGreenCI.mungeLoop, requiredContexts, instant, hu, hg, h1]
  · intro hu
    constructor
    · rw [action_noop_iff]
      rcases Munge_calls_subsingleton k obj (instant now) with h | h
      · exact h
      · rw [h]
        exact mungeLoop_cons_none k obj _ 0 _ _ hu
    · intro g hg
      simp [StaleGreenCI.Munge, StaleGreenCI.mungeLoop, requiredContexts, hu, hg]

/-- C17 on `staleUnitPR`, whose unit context is 100 hours old, and on
`noUnitTimePR`, whose unit context has no status time. -/
theorem Munge_first_context_decides_witness :
    (action (StaleGreenCI.Munge samplePackage staleUnitPR (instant (100 * Hour)))
        = .TriggerRetest ∧
      ∀ g : String → Option Time, g samplePackage.jenkinsUnitContext = some 0 →
        StaleGreenCI.Munge samplePackage { staleUnitPR with GetStatusTime := g }
            (instant (100 * Hour)) =
          StaleGreenCI.Munge samplePackage staleUnitPR (instant (100 * Hour))) ∧
    (action (StaleGreenCI.Munge samplePackage noUnitTimePR (instant (100 * Hour))) = .NoOp ∧
      ∀ g : String → Option Time, g samplePackage.jenkinsUnitContext = none →
        StaleGreenCI.Munge samplePackage { noUnitTimePR with GetStatusTime := g }
            (instant (100 * Hour)) =
          StaleGreenCI.Munge samplePackage noUnitTimePR (instant (100 * Hour))) :=
  ⟨(Munge_first_context_decides samplePackage staleUnitPR (100 * Hour)).1 0 rfl rfl rfl rfl
      (by decide) (by decide),
    (Munge_first_context_decides samplePackage noUnitTimePR (100 * Hour)).2 (by decide)⟩

/-- C18. When `Munge` re-triggers at the instant `now`, a comment of the merge
bot with body `greenMsgBody` created at `now` or later is not stale for
`isStaleComment` on the same pull request: the context that was stale is more
than 96 hours old, which is more than the 30 minutes of grace. -/
theorem fresh_comment_not_stale (k : Package) (obj : MungeObject) (now commentTime : Time)
    (comment : IssueComment)
    (htrig : action (StaleGreenCI.Munge k obj (instant now)) = .TriggerRetest)
    (_hm : k.mergeBotComment comment = true)
    (hb : comment.Body = some (greenMsgBody k))
    (hct : comment.CreatedAt = some commentTime) (hge : commentTime ≥ now) :
    (StaleGreenCI.isStaleComment k obj comment).result = .ok false := by
  rw [action_trigger_iff] at htrig
  obtain ⟨c, hc, t, ht, hstale⟩ :=
    mungeLoop_trigger_exists k obj now 0 _ (Munge_trigger_loop k obj _ htrig).1
  have hgrace := grace_lt_stale
  have hlate : commentTime > t + 30 * Minute := by
    have h1 : t + 96 * Hour < now := by linarith
    have h2 : t + 30 * Minute < t + 96 * Hour := by linarith
    exact lt_of_lt_of_le (lt_trans h2 h1) hge
  rw [isStaleComment_of_body k obj comment _ hb,
    commentBeforeLastCI_late k obj comment commentTime t c hc hct ht hlate]
  simp

/-- C18 on `staleUnitPR` at the instant `100 * Hour` and the comment the
munger posts at that instant. -/
theorem fresh_comment_not_stale_witness :
    (StaleGreenCI.isStaleComment samplePackage staleUnitPR freshBotComment).result = .ok false :=
  fresh_comment_not_stale samplePackage staleUnitPR (100 * Hour) (100 * Hour) freshBotComment
    (by
      rw [action_trigger_iff, Munge_first_stale samplePackage staleUnitPR _ 0 rfl rfl rfl
        rfl rfl (by decide) (by decide)]
      simp)
    (by decide) rfl rfl (le_refl _)

/-- C19. On an unchanged pull request, when `Munge` re-triggers at the instant
`now` it re-triggers at every instant `later` with `now ≤ later`. -/
theorem Munge_trigger_monotone (k : Package) (obj : MungeObject) (now later : Time)
    (hle : now ≤ later)
    (htrig : action (StaleGreenCI.Munge k obj (instant now)) = .TriggerRetest) :
    action (StaleGreenCI.Munge k obj (instant later)) = .TriggerRetest := by
  rw [action_trigger_iff] at htrig ⊢
  obtain ⟨hloop, hpr, hl, hm, herr, hs⟩ := Munge_trigger_loop k obj _ htrig
  rw [Munge_of_preconditions k obj _ hpr hl hm herr hs]
  exact mungeLoop_trigger_mono k obj now later hle 0 0 _ hloop

/-- C19 on `staleUnitPR` at the instants `100 * Hour` and `1000 * Hour`. -/
theorem Munge_trigger_monotone_witness :
    action (StaleGreenCI.Munge samplePackage staleUnitPR (instant (1000 * Hour)))
      = .TriggerRetest :=
  Munge_trigger_monotone samplePackage staleUnitPR (100 * Hour) (1000 * Hour) (by decide)
    (by
      rw [action_trigger_iff, Munge_first_stale samplePackage staleUnitPR _ 0 rfl rfl rfl
        rfl rfl (by decide) (by decide)]
      simp)

end Mungers
